import Mathlib

/-!
Verification of `dagster_reddit_tracker` (a Dagster pipeline that ingests
Reddit posts into DuckDB, classifies them by humanoid-robot brand,
aggregates weekly metrics, summarizes robot posts with an LLM, and drives
PDF report generation from a file-watching sensor).

Shallow embedding conventions:
* Python strings are Lean `String`s; Python's `pat in s` substring test is
  `pyIn pat s`; `.lower()` is `pyLower` (titles here are ASCII).
* UNIX timestamps and epoch days are `Int`.  `time.mktime` of a local
  midnight is modelled as `epochDay * 86400` (a fixed-offset local clock
  without DST, which the code implicitly assumes).
* `datetime.strptime(s, "%Y-%m-%d")` is modelled by a `Date` structure
  (year, month, day) with the standard civil-calendar conversion to epoch
  days; `datetime.weekday()` (Monday = 0) is `pyWeekday`.
* DuckDB tables are Lean lists of row structures; `DELETE ... WHERE` is
  `List.filter` with the negated predicate, `INSERT ... SELECT` is an
  append, the `post_id` PRIMARY KEY makes the insert fail (`Except.error`)
  when a duplicate id would be stored.
* VARCHAR comparisons of ISO `YYYY-MM-DD` strings coincide with numeric
  comparison of their epoch-day numbers, and are modelled so.
* External effects (Reddit API, OpenAI, `json.loads`, the filesystem) are
  oracles passed in as function arguments; `json.loads` failure is `none`.
-/

namespace RedditTracker

/-! ## String utilities: Python's `in` operator -/

/-- `l.take`-style prefix test on char lists (Python `s.startswith`). -/
def charsBegins : List Char → List Char → Bool
  | [], _ => true
  | _ :: _, [] => false
  | p :: ps, c :: cs => p == c && charsBegins ps cs

/-- Substring occurrence on char lists. -/
def charsOccurs (pat : List Char) : List Char → Bool
  | [] => charsBegins pat []
  | c :: cs => charsBegins pat (c :: cs) || charsOccurs pat cs

/-- Python's `pat in s` substring containment test. -/
def pyIn (pat s : String) : Bool :=
  charsOccurs pat.toList s.toList

/-- ASCII lowercasing of one character (the titles handled by the
pipeline are ASCII, where Python's `str.lower` acts exactly like this). -/
def lowerChar (c : Char) : Char :=
  if 'A' ≤ c && c ≤ 'Z' then Char.ofNat (c.toNat + 32) else c

/-- Python's `title.lower()`. -/
def pyLower (s : String) : String := String.mk (s.toList.map lowerChar)

/-! ## The title classifier

Transcription of `get_post_labels` in
`reddit_tracker/assets/posts.py` (`classify_daily_reddit_posts`).
The Python dict `robots` is iterated in insertion order
(optimus, figure, neo); each branch's condition is named below and takes
the already-lowercased title. -/

/-- Keywords of the `robots` dict entry for `optimus`. -/
def optimusKeywords : List String := ["robot", "bot", "humanoid"]

/-- Keywords of the `robots` dict entry for `figure`. -/
def figureKeywords : List String := ["01", "02", "03", "humanoid", "robot", "bot"]

/-- Keywords of the `robots` dict entry for `neo`. -/
def neoKeywords : List String := ["1x", "humanoid", "robot", "bot"]

/-- `exclusion_patterns` in `get_post_labels`. -/
def exclusionPatterns : List String := ["to figure", "figure out", "figure it out"]

/-- `neo_patterns` in `get_post_labels`. -/
def neoPatterns : List String := ["1x bot", "1x robot", "1x humanoid"]

/-- The `optimus` branch of the classification loop
(`'optimus' in title or ('tesla' in title and any(...))`),
on the lowercased title. -/
def optimusRule (t : String) : Bool :=
  pyIn "optimus" t || (pyIn "tesla" t && optimusKeywords.any (fun k => pyIn k t))

/-- The `figure` branch of the classification loop
(`'figure' in title and any(keyword) and not any(exclusion)`),
on the lowercased title. -/
def figureRule (t : String) : Bool :=
  pyIn "figure" t && figureKeywords.any (fun k => pyIn k t)
    && !(exclusionPatterns.any (fun e => pyIn e t))

/-- The `neo` branch of the classification loop
(`('neo' in title and any(keyword)) or any(neo_pattern)`),
on the lowercased title. -/
def neoRule (t : String) : Bool :=
  (pyIn "neo" t && neoKeywords.any (fun k => pyIn k t))
    || neoPatterns.any (fun k => pyIn k t)

/-- `get_post_labels(title)`: lowercase the title, run the three brand
branches in dict order collecting `labels`, fall back to `other`/`none`
when no brand matched, and hyphenate multiple labels. -/
def get_post_labels (title : String) : String :=
  let t := pyLower title
  let labels : List String :=
    (if optimusRule t then ["optimus"] else [])
      ++ (if figureRule t then ["figure"] else [])
      ++ (if neoRule t then ["neo"] else [])
  let labels :=
    if labels.isEmpty then
      if pyIn "humanoid" t then ["other"] else ["none"]
    else labels
  if labels.length > 1 then String.intercalate "-" labels else labels.headD ""

/-- Spec-side classifier (for claim C1): the result as a function of the
three independent rule outcomes, with the multi-match labels written out
explicitly in the fixed evaluation order optimus, figure, neo and joined
by `-`, and the zero-match fallback decided by the generic keyword
`humanoid`. -/
def classifyFromRules (title : String) : String :=
  let t := pyLower title
  match optimusRule t, figureRule t, neoRule t with
  | true,  true,  true  => "optimus-figure-neo"
  | true,  true,  false => "optimus-figure"
  | true,  false, true  => "optimus-neo"
  | false, true,  true  => "figure-neo"
  | true,  false, false => "optimus"
  | false, true,  false => "figure"
  | false, false, true  => "neo"
  | false, false, false => if pyIn "humanoid" t then "other" else "none"

/-! ## Dates, partition keys and time windows

`datetime.strptime(partition_date_str, "%Y-%m-%d")` yields a (local)
midnight datetime; we model the parsed value as a `Date` and
`time.mktime(dt.timetuple())` of a midnight as `epochDay * 86400`
(fixed-offset local clock, no DST). -/

/-- A parsed `YYYY-MM-DD` partition key. -/
structure Date where
  year : Nat
  month : Nat
  day : Nat
deriving DecidableEq, Repr

/-- Gregorian leap year. -/
def isLeap (y : Nat) : Bool :=
  (y % 4 == 0 && y % 100 != 0) || y % 400 == 0

/-- Days in a month of the Gregorian calendar. -/
def daysInMonth (y m : Nat) : Nat :=
  if m == 2 then (if isLeap y then 29 else 28)
  else if m == 4 || m == 6 || m == 9 || m == 11 then 30
  else 31

/-- Well-formedness of a `YYYY-MM-DD` date string, on its parsed form. -/
def validDate (d : Date) : Bool :=
  1 ≤ d.year && 1 ≤ d.month && d.month ≤ 12 && 1 ≤ d.day
    && d.day ≤ daysInMonth d.year d.month

/-- Days since 1970-01-01 of a civil date (standard civil-calendar
conversion, for years ≥ 1). -/
def toEpochDay (d : Date) : Int :=
  let yp : Nat := if d.month ≤ 2 then d.year - 1 else d.year
  let era : Nat := yp / 400
  let yoe : Nat := yp % 400
  let mp : Nat := (d.month + 9) % 12
  let doy : Nat := (153 * mp + 2) / 5 + d.day - 1
  let doe : Nat := yoe * 365 + yoe / 4 - yoe / 100 + doy
  (era * 146097 + doe : Int) - 719468

/-- Python's `datetime.weekday()` (Monday = 0) of an epoch day:
1970-01-01 (day 0) was a Thursday (= 3). -/
def pyWeekday (n : Int) : Int := (n + 3) % 7

/-- `int(time.mktime(...))` of the local midnight of an epoch day. -/
def mkTimeMidnight (n : Int) : Int := n * 86400

/-- The `(start_timestamp, end_timestamp)` pair computed by
`fetch_daily_reddit_posts`, `classify_daily_reddit_posts` and
`summarize_robot_posts`: midnight of the partition date and midnight of
`start_date + timedelta(days=1)`. -/
def dailyWindow (d : Date) : Int × Int :=
  (mkTimeMidnight (toEpochDay d), mkTimeMidnight (toEpochDay d + 1))

/-- The `(start_timestamp, end_timestamp)` pair computed by
`aggregate_posts_by_category_and_week`:
`start_date = partition_date - timedelta(days=partition_date.weekday())`
and `end_date = partition_date + timedelta(days=1)`. -/
def weekWindow (d : Date) : Int × Int :=
  (mkTimeMidnight (toEpochDay d - pyWeekday (toEpochDay d)),
   mkTimeMidnight (toEpochDay d + 1))

/-- The `WHERE created_utc >= start AND created_utc < end` predicate of
the ingestion DELETE and the classify/summarize/aggregate SELECTs
(half-open). -/
def halfOpenPred (w : Int × Int) (t : Int) : Bool :=
  w.1 ≤ t && t < w.2

/-- The in-memory filter of the fetch loop in `fetch_daily_reddit_posts`
(`if start_timestamp <= post.created_utc <= end_timestamp`): closed at
both ends. -/
def fetchPred (w : Int × Int) (t : Int) : Bool :=
  w.1 ≤ t && t ≤ w.2

/-! ## Ingestion: `fetch_daily_reddit_posts`

The `posts` DuckDB table is a list of `PostRow`s with `post_id` as
PRIMARY KEY.  The asset fetches posts passing `fetchPred`, DELETEs the
partition's half-open window and INSERTs the fetched rows; the INSERT
raises a constraint error when a stored `post_id` would be duplicated.
`created_local` (a formatted local datetime string in the code) is kept
as the underlying local timestamp: lexicographic comparison of the
`YYYY-MM-DD HH:MM:SS` strings coincides with numeric comparison. -/

/-- A post as returned by the Reddit API. -/
structure RedditItem where
  post_id : String
  subreddit : String
  title : String
  created_utc : Int
  score : Int
  n_comments : Int
deriving DecidableEq, Repr

/-- A row of the `posts` table. -/
structure PostRow where
  post_id : String
  humanoid : Option String
  subreddit : String
  title : String
  created_utc : Int
  created_local : Int
  score : Int
  n_comments : Int
  partition_date : Int
deriving DecidableEq, Repr

/-- The row built by the INSERT of `fetch_daily_reddit_posts`
(`humanoid` is NULL; `partition_date` is the partition key). -/
def toPostRow (pday : Int) (it : RedditItem) : PostRow :=
  { post_id := it.post_id
    humanoid := none
    subreddit := it.subreddit
    title := it.title
    created_utc := it.created_utc
    created_local := it.created_utc
    score := it.score
    n_comments := it.n_comments
    partition_date := pday }

/-- Duplicate detection among inserted ids. -/
def hasDupIds : List String → Bool
  | [] => false
  | x :: xs => xs.contains x || hasDupIds xs

/-- The `post_id` PRIMARY KEY check performed by DuckDB on INSERT. -/
def pkViolation (existing newRows : List PostRow) : Bool :=
  newRows.any (fun r => existing.any (fun q => q.post_id == r.post_id))
    || hasDupIds (newRows.map (fun r => r.post_id))

/-- One run of `fetch_daily_reddit_posts` for partition `d` when the API
returns `items`: filter by the closed fetch window, DELETE the half-open
window, INSERT the fetched rows (failing on a PRIMARY KEY violation). -/
def ingestRun (d : Date) (items : List RedditItem) (table : List PostRow) :
    Except String (List PostRow) :=
  let w := dailyWindow d
  let fetched := items.filter (fun it => fetchPred w it.created_utc)
  let afterDelete := table.filter (fun r => !halfOpenPred w r.created_utc)
  let newRows := fetched.map (toPostRow (toEpochDay d))
  if pkViolation afterDelete newRows then
    Except.error "Constraint Error: duplicate key in posts.post_id"
  else
    Except.ok (afterDelete ++ newRows)

/-! ## Robot-post selection: `select_robot_posts` and the SELECT of
`summarize_robot_posts` -/

/-- The label set of the `humanoid IN ('optimus', 'figure', 'neo')`
filters. -/
def threeBrands : List String := ["optimus", "figure", "neo"]

/-- SQL `humanoid IN ('optimus', 'figure', 'neo')` (NULL is not IN). -/
def isRobotLabel : Option String → Bool
  | some s => threeBrands.contains s
  | none => false

/-- The WHERE clause of the `robot_posts` INSERT: single-brand label and
`created_local` inside the partition day (the code compares the
`YYYY-MM-DD HH:MM:SS` string against `str(start_date)`/`str(end_date)`,
which for a fixed format is the chronological order). -/
def robotSelectPred (w : Int × Int) (r : PostRow) : Bool :=
  isRobotLabel r.humanoid && w.1 ≤ r.created_local && r.created_local < w.2

/-- The rows inserted into `robot_posts` by `select_robot_posts`. -/
def selectRobotInsert (d : Date) (posts : List PostRow) : List PostRow :=
  posts.filter (robotSelectPred (dailyWindow d))

/-- One run of `select_robot_posts`: DELETE the partition's
`created_local` window from `robot_posts`, INSERT the selected rows. -/
def selectRobotRun (d : Date) (posts robotPosts : List PostRow) : List PostRow :=
  let w := dailyWindow d
  robotPosts.filter (fun r => !(w.1 ≤ r.created_local && r.created_local < w.2))
    ++ selectRobotInsert d posts

/-- The SELECT of `summarize_robot_posts`: robot posts of the partition
day (half-open on `created_utc`) with a single-brand label. -/
def summariesSelect (d : Date) (robotPosts : List PostRow) : List PostRow :=
  robotPosts.filter
    (fun r => halfOpenPred (dailyWindow d) r.created_utc && isRobotLabel r.humanoid)

/-! ## Summarization: `summarize_robot_posts`

Reddit and OpenAI are oracles: `fetchP` returns the submission fetched by
id (with its flattened comments), `llm` maps a comment string to the
model's raw response, and `decode` is `json.loads`, returning `none` on
malformed JSON (which in the code raises and aborts the run: neither the
LLM request nor the decode is inside any try/except).  The output file is
`none` when never written, `some recs` when written with `recs`. -/

/-- A submission as fetched from the Reddit API. -/
structure FetchedPost where
  post_id : String
  title : String
  permalink : String
  n_comments : Int
  comments : String

/-- One record of the output JSON file (`summary_with_metadata`);
`payload` is the decoded `{"summary": ..., "themes": ...}` object. -/
structure SummaryRec (α : Type) where
  post_id : String
  n_comments : Int
  post_permalink : String
  humanoid : Option String
  title : String
  payload : α

/-- The raw LLM response for one selected row
(`summarize_reddit_post(flattened_comments_str)`). -/
def summaryRespOf (fetchP : String → FetchedPost) (llm : String → String)
    (r : PostRow) : String :=
  llm (fetchP r.post_id).comments

/-- `summary_with_metadata` for one row. -/
def mkSummaryRec {α : Type} (fetchP : String → FetchedPost) (payload : α) (r : PostRow) :
    SummaryRec α :=
  let p := fetchP r.post_id
  { post_id := p.post_id
    n_comments := p.n_comments
    post_permalink := p.permalink
    humanoid := r.humanoid
    title := p.title
    payload := payload }

/-- The per-row loop: build `all_summaries`, aborting (`none`) at the
first malformed JSON response. -/
def summarizeGo {α : Type} (fetchP : String → FetchedPost) (llm : String → String)
    (decode : String → Option α) : List PostRow → Option (List (SummaryRec α))
  | [] => some []
  | r :: rs =>
    match decode (summaryRespOf fetchP llm r) with
    | none => none
    | some payload =>
      (summarizeGo fetchP llm decode rs).map (mkSummaryRec fetchP payload r :: ·)

/-- How many LLM requests the loop issues: one per row up to and
including the first malformed response (nothing is retried). -/
def summarizeCalls {α : Type} (fetchP : String → FetchedPost) (llm : String → String)
    (decode : String → Option α) : List PostRow → Nat
  | [] => 0
  | r :: rs =>
    match decode (summaryRespOf fetchP llm r) with
    | none => 1
    | some _ => 1 + summarizeCalls fetchP llm decode rs

/-- One run of `summarize_robot_posts` for partition `d`:
`Except.error ()` is an uncaught exception (no file written),
`Except.ok none` a completed run that wrote no file (the
`if len(partition_df) > 0` guard), `Except.ok (some recs)` a completed
run that wrote the full batch `recs`. -/
def summarizeRun {α : Type} (d : Date) (robotPosts : List PostRow)
    (fetchP : String → FetchedPost) (llm : String → String)
    (decode : String → Option α) : Except Unit (Option (List (SummaryRec α))) :=
  let rows := summariesSelect d robotPosts
  if rows.length > 0 then
    match summarizeGo fetchP llm decode rows with
    | none => Except.error ()
    | some recs => Except.ok (some recs)
  else Except.ok none

/-- The number of LLM requests issued by one run of
`summarize_robot_posts`. -/
def summarizeRunCalls {α : Type} (d : Date) (robotPosts : List PostRow)
    (fetchP : String → FetchedPost) (llm : String → String)
    (decode : String → Option α) : Nat :=
  let rows := summariesSelect d robotPosts
  if rows.length > 0 then summarizeCalls fetchP llm decode rows else 0

/-! ## Weekly aggregation: `aggregate_posts_by_category_and_week`

The `weekly_post_metrics` table and the `seq_weekly_id` sequence are the
state; one run DELETEs the partition week's rows (comparing the
`partition_date` VARCHAR against `start_date_str`/`end_date_str`, i.e.
epoch days here) and INSERTs one row per `humanoid` group of the posts
in the week window, each with `nextval('seq_weekly_id')` as id.  GROUP BY
produces one row per distinct key; we order groups by first appearance.
Averages are exact rationals; `ROUND(x, 2)` is `round2`. -/

/-- A row of `weekly_post_metrics`. -/
structure MetricRow where
  id : Nat
  humanoid : Option String
  n_posts : Nat
  avg_score : Rat
  avg_comments : Rat
  partition_date : Int
deriving DecidableEq, Repr

/-- `weekly_post_metrics` plus the current `seq_weekly_id` value. -/
structure AggState where
  table : List MetricRow
  seq : Nat
deriving DecidableEq, Repr

/-- SQL `ROUND(x, 2)`. -/
def round2 (q : Rat) : Rat := ((q * 100 + 1 / 2).floor : Rat) / 100

/-- SQL `AVG` over the values of a group. -/
def ratAvg (l : List Int) : Rat := (l.sum : Rat) / (l.length : Rat)

/-- Monday of the week of the partition date
(`partition_date - timedelta(days=partition_date.weekday())`). -/
def mondayOf (d : Date) : Int := toEpochDay d - pyWeekday (toEpochDay d)

/-- The aggregated row of one `humanoid` group. -/
def mkMetricRow (inWin : List PostRow) (monday : Int) (h : Option String)
    (s : Nat) : MetricRow :=
  let grp := inWin.filter (fun p => p.humanoid == h)
  { id := s
    humanoid := h
    n_posts := grp.length
    avg_score := round2 (ratAvg (grp.map (fun p => p.score)))
    avg_comments := round2 (ratAvg (grp.map (fun p => p.n_comments)))
    partition_date := monday }

/-- The INSERTed rows: one per group key, ids drawn consecutively from
the sequence. -/
def buildMetricRows (inWin : List PostRow) (monday : Int) :
    List (Option String) → Nat → List MetricRow
  | [], _ => []
  | h :: hs, s => mkMetricRow inWin monday h s :: buildMetricRows inWin monday hs (s + 1)

/-- The posts feeding the aggregation INSERT: `created_utc` inside the
(half-open) week window of the partition. -/
def weekPosts (d : Date) (posts : List PostRow) : List PostRow :=
  posts.filter (fun p => halfOpenPred (weekWindow d) p.created_utc)

/-- The GROUP BY keys: the distinct `humanoid` values of the week's
posts, in order of first appearance. -/
def weekKeys (d : Date) (posts : List PostRow) : List (Option String) :=
  ((weekPosts d posts).map (fun p => p.humanoid)).eraseDups

/-- One run of `aggregate_posts_by_category_and_week` for partition `d`
over the current `posts` table. -/
def aggregateWeek (d : Date) (posts : List PostRow) (st : AggState) : AggState :=
  let monday := mondayOf d
  let afterDel := st.table.filter
    (fun r => !(monday ≤ r.partition_date && r.partition_date < toEpochDay d + 1))
  { table := afterDel ++ buildMetricRows (weekPosts d posts) monday (weekKeys d posts) st.seq
    seq := st.seq + (weekKeys d posts).length }

/-- The columns of a `weekly_post_metrics` row other than the
sequence-assigned `id`. -/
def MetricRow.content (r : MetricRow) : Option String × Nat × Rat × Rat × Int :=
  (r.humanoid, r.n_posts, r.avg_score, r.avg_comments, r.partition_date)

/-- The rows the aggregator materialized for the week of partition `d`
(the select on `partition_date = start_date_str`). -/
def weekRows (st : AggState) (d : Date) : List MetricRow :=
  st.table.filter (fun r => r.partition_date == mondayOf d)

/-! ## The sensor: `generate_pdf_reports_sensor`

A directory listing is a list of `DirEntry`s (distinct names in a real
listing); the cursor is the JSON dict `{filename: mtime}` as an
association list; mtimes (floats in the code) are modelled as `Nat`.
`run_key=f"generate_pdf_reports_{filename}_{last_modified}"` is
`runKey`. -/

/-- One entry of `os.listdir` with its `os.path.getmtime` and
`os.path.isfile` results. -/
structure DirEntry where
  name : String
  mtime : Nat
  isFile : Bool
deriving DecidableEq, Repr

/-- `filename.endswith(".json") and os.path.isfile(file_path)`. -/
def isJsonFile (e : DirEntry) : Bool :=
  charsBegins ".json".toList.reverse e.name.toList.reverse && e.isFile

/-- Decimal digit characters. -/
def digitChar (n : Nat) : Char :=
  match n with
  | 0 => '0' | 1 => '1' | 2 => '2' | 3 => '3' | 4 => '4'
  | 5 => '5' | 6 => '6' | 7 => '7' | 8 => '8' | _ => '9'

/-- Decimal rendering of a `Nat`, fueled for structural recursion. -/
def natDigitsAux : Nat → Nat → List Char
  | 0, _ => []
  | fuel + 1, n =>
    if n < 10 then [digitChar n]
    else natDigitsAux fuel (n / 10) ++ [digitChar (n % 10)]

/-- Python `str` of the (modelled) mtime. -/
def natStr (n : Nat) : String := String.mk (natDigitsAux (n + 1) n)

/-- The deduplication run key
`f"generate_pdf_reports_{filename}_{last_modified}"`. -/
def runKey (filename : String) (mtime : Nat) : String :=
  "generate_pdf_reports_" ++ filename ++ "_" ++ natStr mtime

/-- One sensor evaluation: emit a run key for every listed `.json` file
that is absent from the previous cursor or has a changed mtime, and
return the freshly observed mapping as the new cursor. -/
def sensorEval (prev : List (String × Nat)) (snap : List DirEntry) :
    List String × List (String × Nat) :=
  let files := snap.filter isJsonFile
  let emitted := files.filter (fun e => !(prev.lookup e.name == some e.mtime))
  (emitted.map (fun e => runKey e.name e.mtime),
   files.map (fun e => (e.name, e.mtime)))

/-- A sequence of sensor evaluations threading the cursor, returning the
emissions of each evaluation. -/
def sensorTrace (cursor : List (String × Nat)) : List (List DirEntry) → List (List String)
  | [] => []
  | snap :: rest =>
    (sensorEval cursor snap).1 :: sensorTrace (sensorEval cursor snap).2 rest

/-! ## Spec-side measures used in the claims -/

/-- How many of the three brand rules match a title (spec-side measure
for the multi-match claims). -/
def numBrandMatches (title : String) : Nat :=
  let t := pyLower title
  (if optimusRule t then 1 else 0) + (if figureRule t then 1 else 0)
    + (if neoRule t then 1 else 0)

/-- Reading a decimal digit string back as a number (proof device for
the injectivity of `natStr`). -/
def parseNum (l : List Char) : Nat :=
  l.foldl (fun acc c => acc * 10 + (c.toNat - 48)) 0

/-! ## Helper lemmas -/

/-- The classification loop computes exactly the rule composition of
`classifyFromRules`. -/
theorem get_post_labels_eq_classifyFromRules (title : String) :
    get_post_labels title = classifyFromRules title := by
  unfold get_post_labels classifyFromRules
  cases ho : optimusRule (pyLower title) <;> cases hf : figureRule (pyLower title) <;>
    cases hn : neoRule (pyLower title) <;> cases hh : pyIn "humanoid" (pyLower title) <;>
    simp [ho, hf, hn, hh] <;> rfl

/-! ## C1 and C2: the classifier -/

/-- C1: for every title, classification is the deterministic pure
function whose three brand rules are evaluated independently on the
lower-cased title; with zero matches the label is `other` exactly when
`humanoid` occurs and `none` otherwise, and with several matches the
label is the matching brand names joined by `-` in the fixed evaluation
order optimus, figure, neo. -/
theorem classify_is_rule_composition (title : String) :
    get_post_labels title = classifyFromRules title :=
  get_post_labels_eq_classifyFromRules title

/-- C2 counterexample: the claim maps
"How to figure out if a robot is humanoid" to `none`, but the code
labels it `other` (the exclusion phrase suppresses the figure match and
the generic keyword `humanoid` is present). -/
theorem classify_figure_out_title_not_none :
    get_post_labels "How to figure out if a robot is humanoid" ≠ "none" := by
  decide

/-- C2 (amended): the classifier maps
"Tesla Optimus humanoid robot shown walking" to `optimus`,
"How to figure out if a robot is humanoid" to `other`, and
"1x Neo humanoid unveiled" to `neo`. -/
theorem classify_concrete_titles :
    get_post_labels "Tesla Optimus humanoid robot shown walking" = "optimus"
      ∧ get_post_labels "How to figure out if a robot is humanoid" = "other"
      ∧ get_post_labels "1x Neo humanoid unveiled" = "neo" := by
  refine ⟨by decide, by decide, by decide⟩

/-! ## C3: the daily and weekly windows -/

/-- C3 counterexample: for the valid partition key 2024-05-08 (a
Wednesday) the weekly aggregation window is 3 days wide, not 7: its
upper bound is midnight after the partition date, not Monday + 7 days. -/
theorem week_window_not_seven_days_wide :
    validDate ⟨2024, 5, 8⟩ = true
      ∧ (weekWindow ⟨2024, 5, 8⟩).2 - (weekWindow ⟨2024, 5, 8⟩).1 ≠ 7 * 86400 := by
  refine ⟨by decide, by decide⟩

/-- C3 (amended): for every valid partition key the computed daily
window spans exactly 24 hours from local midnight (and is applied
half-open by the database DELETE/SELECT predicates, though the in-memory
fetch filter also accepts the end instant); the week window starts at
the Monday of the partition's week and ends at midnight after the
partition date, so it is between 1 and 7 days wide — exactly 7 days only
when the partition date is a Sunday. -/
theorem daily_window_24h_and_week_window_monday_aligned (d : Date)
    (h : validDate d = true) :
    (dailyWindow d).2 - (dailyWindow d).1 = 86400
      ∧ fetchPred (dailyWindow d) (dailyWindow d).2 = true
      ∧ (weekWindow d).1 = mkTimeMidnight (mondayOf d)
      ∧ pyWeekday (mondayOf d) = 0
      ∧ mondayOf d ≤ toEpochDay d
      ∧ (weekWindow d).2 = mkTimeMidnight (toEpochDay d + 1)
      ∧ (weekWindow d).2 - (weekWindow d).1 = (pyWeekday (toEpochDay d) + 1) * 86400
      ∧ (weekWindow d).2 - (weekWindow d).1 ≤ 7 * 86400
      ∧ ((weekWindow d).2 - (weekWindow d).1 = 7 * 86400
          ↔ pyWeekday (toEpochDay d) = 6) := by
  simp [dailyWindow, weekWindow, fetchPred, mkTimeMidnight, mondayOf, pyWeekday]
  omega

/-- Witness for C3's amended theorem at the valid key 2024-05-08. -/
theorem daily_window_24h_and_week_window_monday_aligned_witness :
    (dailyWindow ⟨2024, 5, 8⟩).2 - (dailyWindow ⟨2024, 5, 8⟩).1 = 86400
      ∧ fetchPred (dailyWindow ⟨2024, 5, 8⟩) (dailyWindow ⟨2024, 5, 8⟩).2 = true
      ∧ (weekWindow ⟨2024, 5, 8⟩).1 = mkTimeMidnight (mondayOf ⟨2024, 5, 8⟩)
      ∧ pyWeekday (mondayOf ⟨2024, 5, 8⟩) = 0
      ∧ mondayOf ⟨2024, 5, 8⟩ ≤ toEpochDay ⟨2024, 5, 8⟩
      ∧ (weekWindow ⟨2024, 5, 8⟩).2 = mkTimeMidnight (toEpochDay ⟨2024, 5, 8⟩ + 1)
      ∧ (weekWindow ⟨2024, 5, 8⟩).2 - (weekWindow ⟨2024, 5, 8⟩).1
          = (pyWeekday (toEpochDay ⟨2024, 5, 8⟩) + 1) * 86400
      ∧ (weekWindow ⟨2024, 5, 8⟩).2 - (weekWindow ⟨2024, 5, 8⟩).1 ≤ 7 * 86400
      ∧ ((weekWindow ⟨2024, 5, 8⟩).2 - (weekWindow ⟨2024, 5, 8⟩).1 = 7 * 86400
          ↔ pyWeekday (toEpochDay ⟨2024, 5, 8⟩) = 6) :=
  daily_window_24h_and_week_window_monday_aligned ⟨2024, 5, 8⟩ (by decide)

/-! ## C4: re-ingestion of an already-ingested window -/

/-- C4: the fetch filter is closed (`<= end_timestamp`) while the DELETE
window is half-open, so a post created exactly at the window's end
instant survives the DELETE of a re-run and the INSERT then violates the
`post_id` PRIMARY KEY: re-running ingestion over an already-ingested
partition window fails instead of leaving the row count unchanged.  The
first run on an empty table succeeds; the second run errors. -/
theorem reingest_boundary_post_violates_primary_key :
    (ingestRun ⟨2024, 5, 6⟩
        [{ post_id := "p1", subreddit := "robotics", title := "Tesla Optimus demo",
           created_utc := (dailyWindow ⟨2024, 5, 6⟩).2, score := 10, n_comments := 3 }]
        []).isOk = true
      ∧ (ingestRun ⟨2024, 5, 6⟩
          [{ post_id := "p1", subreddit := "robotics", title := "Tesla Optimus demo",
             created_utc := (dailyWindow ⟨2024, 5, 6⟩).2, score := 10, n_comments := 3 }]
          []).bind
          (ingestRun ⟨2024, 5, 6⟩
            [{ post_id := "p1", subreddit := "robotics", title := "Tesla Optimus demo",
               created_utc := (dailyWindow ⟨2024, 5, 6⟩).2, score := 10, n_comments := 3 }])
        = Except.error "Constraint Error: duplicate key in posts.post_id" := by
  refine ⟨by decide, by rfl⟩

/-! ## C5: re-running the weekly aggregator -/

/-- The non-id columns of the INSERTed rows do not depend on the
sequence's current value. -/
theorem buildMetricRows_map_content (inWin : List PostRow) (monday : Int) :
    ∀ (keys : List (Option String)) (s s' : Nat),
      (buildMetricRows inWin monday keys s).map MetricRow.content
        = (buildMetricRows inWin monday keys s').map MetricRow.content := by
  intro keys
  induction keys with
  | nil => intro s s'; rfl
  | cons h hs ih =>
    intro s s'
    simp [buildMetricRows, mkMetricRow, MetricRow.content, ih s.succ s'.succ]

/-- Every INSERTed row carries the week's Monday as `partition_date`. -/
theorem mem_buildMetricRows_pd (inWin : List PostRow) (monday : Int) :
    ∀ (keys : List (Option String)) (s : Nat) (r : MetricRow),
      r ∈ buildMetricRows inWin monday keys s → r.partition_date = monday := by
  intro keys
  induction keys with
  | nil => intro s r hr; simp [buildMetricRows] at hr
  | cons h hs ih =>
    intro s r hr
    rcases List.mem_cons.mp hr with h1 | h2
    · subst h1; rfl
    · exact ih _ _ h2

/-- After one aggregator run, the rows stored for the partition's week
are exactly the freshly built group rows. -/
theorem weekRows_aggregateWeek (d : Date) (posts : List PostRow) (st : AggState) :
    weekRows (aggregateWeek d posts st) d
      = buildMetricRows (weekPosts d posts) (mondayOf d) (weekKeys d posts) st.seq := by
  unfold weekRows aggregateWeek
  rw [List.filter_append]
  have h1 : List.filter (fun r => r.partition_date == mondayOf d)
      (st.table.filter
        (fun r => !(mondayOf d ≤ r.partition_date && r.partition_date < toEpochDay d + 1)))
      = [] := by
    apply List.filter_eq_nil_iff.mpr
    intro r hr
    have hp := (List.mem_filter.mp hr).2
    simp only [beq_iff_eq]
    intro hpd
    simp only [Bool.not_eq_true', Bool.and_eq_false_iff, decide_eq_false_iff_not,
      not_le, not_lt, mondayOf, pyWeekday] at hp
    simp only [mondayOf, pyWeekday] at hpd
    omega
  have h2 : List.filter (fun r => r.partition_date == mondayOf d)
      (buildMetricRows (weekPosts d posts) (mondayOf d) (weekKeys d posts) st.seq)
      = buildMetricRows (weekPosts d posts) (mondayOf d) (weekKeys d posts) st.seq := by
    apply List.filter_eq_self.mpr
    intro r hr
    simp [mem_buildMetricRows_pd _ _ _ _ _ hr]
  rw [h1, h2, List.nil_append]

/-- C5 counterexample: one Monday post, aggregated twice for its
partition; the stored weekly rows are not byte-identical across the two
runs, because the surrogate `id` comes from the always-advancing
`seq_weekly_id` sequence (1 on the first run, 2 on the second). -/
theorem aggregate_rerun_rows_not_identical :
    (weekRows (aggregateWeek ⟨2024, 5, 6⟩
        [⟨"p1", some "optimus", "robotics", "Tesla Optimus demo",
          19849 * 86400, 19849 * 86400, 5, 2, 19849⟩] ⟨[], 1⟩) ⟨2024, 5, 6⟩).map MetricRow.id
      = [1]
    ∧ (weekRows (aggregateWeek ⟨2024, 5, 6⟩
        [⟨"p1", some "optimus", "robotics", "Tesla Optimus demo",
          19849 * 86400, 19849 * 86400, 5, 2, 19849⟩]
        (aggregateWeek ⟨2024, 5, 6⟩
          [⟨"p1", some "optimus", "robotics", "Tesla Optimus demo",
            19849 * 86400, 19849 * 86400, 5, 2, 19849⟩] ⟨[], 1⟩)) ⟨2024, 5, 6⟩).map MetricRow.id
      = [2]
    ∧ weekRows (aggregateWeek ⟨2024, 5, 6⟩
        [⟨"p1", some "optimus", "robotics", "Tesla Optimus demo",
          19849 * 86400, 19849 * 86400, 5, 2, 19849⟩] ⟨[], 1⟩) ⟨2024, 5, 6⟩
      ≠ weekRows (aggregateWeek ⟨2024, 5, 6⟩
        [⟨"p1", some "optimus", "robotics", "Tesla Optimus demo",
          19849 * 86400, 19849 * 86400, 5, 2, 19849⟩]
        (aggregateWeek ⟨2024, 5, 6⟩
          [⟨"p1", some "optimus", "robotics", "Tesla Optimus demo",
            19849 * 86400, 19849 * 86400, 5, 2, 19849⟩] ⟨[], 1⟩)) ⟨2024, 5, 6⟩ := by
  refine ⟨by decide, by decide, ?_⟩
  intro h
  have h2 := congrArg (List.map MetricRow.id) h
  revert h2
  decide

/-- C5 (amended): re-running the weekly aggregator for the same
partition key over unchanged `posts` data reproduces the week's rows
identically in every column except the sequence-assigned surrogate `id`
(which keeps advancing). -/
theorem aggregate_rerun_same_content (d : Date) (posts : List PostRow) (st : AggState) :
    (weekRows (aggregateWeek d posts st) d).map MetricRow.content
      = (weekRows (aggregateWeek d posts (aggregateWeek d posts st)) d).map MetricRow.content := by
  rw [weekRows_aggregateWeek, weekRows_aggregateWeek]
  exact buildMetricRows_map_content _ _ _ _ _

/-! ## Sensor helper lemmas: the run key determines filename and mtime -/

/-- Digit characters are never the underscore. -/
theorem digitChar_ne_underscore (m : Nat) : digitChar m ≠ '_' := by
  unfold digitChar
  split <;> decide

/-- The decimal rendering of an mtime contains no underscore. -/
theorem natDigitsAux_no_underscore : ∀ (fuel n : Nat), '_' ∉ natDigitsAux fuel n := by
  intro fuel
  induction fuel with
  | zero => intro n; simp [natDigitsAux]
  | succ f ih =>
    intro n
    simp only [natDigitsAux]
    split
    · intro hm
      rw [List.mem_singleton] at hm
      exact digitChar_ne_underscore n hm.symm
    · intro hm
      rcases List.mem_append.mp hm with h1 | h2
      · exact ih _ h1
      · rw [List.mem_singleton] at h2
        exact digitChar_ne_underscore _ h2.symm

/-- Reading back the decimal rendering recovers the number. -/
theorem parseNum_natDigitsAux :
    ∀ (fuel n : Nat), n < fuel → parseNum (natDigitsAux fuel n) = n := by
  intro fuel
  induction fuel with
  | zero => intro n hn; omega
  | succ f ih =>
    intro n hn
    have hd : ∀ m, m < 10 → (digitChar m).toNat - 48 = m := by decide
    simp only [natDigitsAux]
    split
    · rename_i h10
      simp [parseNum, hd n h10]
    · rename_i h10
      have hrec := ih (n / 10) (by omega)
      simp only [parseNum, List.foldl_append] at hrec ⊢
      rw [hrec]
      simp [hd (n % 10) (by omega)]
      omega

/-- `natStr` is injective. -/
theorem natStr_inj {m m' : Nat} (h : natStr m = natStr m') : m = m' := by
  have hdata : natDigitsAux (m + 1) m = natDigitsAux (m' + 1) m' := congrArg String.data h
  have h1 := parseNum_natDigitsAux (m + 1) m (by omega)
  have h2 := parseNum_natDigitsAux (m' + 1) m' (by omega)
  rw [← h1, ← h2, hdata]

/-- Splitting at a separator that occurs in neither left part is
unambiguous. -/
theorem append_sep_inj_left :
    ∀ (a b a' b' : List Char), '_' ∉ a → '_' ∉ a' →
      a ++ '_' :: b = a' ++ '_' :: b' → a = a' ∧ b = b' := by
  intro a
  induction a with
  | nil =>
    intro b a' b' _ ha' heq
    cases a' with
    | nil => simpa using heq
    | cons x xs =>
      simp only [List.nil_append, List.cons_append, List.cons.injEq] at heq
      exact absurd (by rw [heq.1]; exact List.mem_cons_self x xs) ha'
  | cons x xs ih =>
    intro b a' b' ha ha' heq
    cases a' with
    | nil =>
      simp only [List.nil_append, List.cons_append, List.cons.injEq] at heq
      exact absurd (by rw [← heq.1]; exact List.mem_cons_self x xs) ha
    | cons y ys =>
      simp only [List.cons_append, List.cons.injEq] at heq
      have hxs : '_' ∉ xs := fun hm => ha (List.mem_cons_of_mem _ hm)
      have hys : '_' ∉ ys := fun hm => ha' (List.mem_cons_of_mem _ hm)
      obtain ⟨h1, h2⟩ := ih b ys b' hxs hys heq.2
      exact ⟨by rw [heq.1, h1], h2⟩

/-- Splitting at the last separator (no separator in either right part)
is unambiguous. -/
theorem append_sep_inj_right (a b a' b' : List Char)
    (hb : '_' ∉ b) (hb' : '_' ∉ b')
    (heq : a ++ '_' :: b = a' ++ '_' :: b') : a = a' ∧ b = b' := by
  have hrev : b.reverse ++ '_' :: a.reverse = b'.reverse ++ '_' :: a'.reverse := by
    have h2 := congrArg List.reverse heq
    simpa [List.reverse_append, List.append_assoc] using h2
  have hbr : '_' ∉ b.reverse := by simpa using hb
  have hbr' : '_' ∉ b'.reverse := by simpa using hb'
  obtain ⟨h1, h2⟩ := append_sep_inj_left _ _ _ _ hbr hbr' hrev
  exact ⟨List.reverse_injective h2, List.reverse_injective h1⟩

/-- Characters of a concatenation of strings. -/
theorem string_data_append (s t : String) : (s ++ t).data = s.data ++ t.data := rfl

/-- The deduplication run key determines the filename and the mtime: the
mtime rendering after the final underscore is digits-only, so the split
is unambiguous. -/
theorem runKey_inj {n n' : String} {m m' : Nat}
    (h : runKey n m = runKey n' m') : n = n' ∧ m = m' := by
  have hdata := congrArg String.data h
  simp only [runKey, string_data_append, natStr, List.append_assoc] at hdata
  have hcancel := List.append_cancel_left hdata
  simp only [List.singleton_append] at hcancel
  obtain ⟨h1, h2⟩ := append_sep_inj_right _ _ _ _
    (natDigitsAux_no_underscore _ _) (natDigitsAux_no_underscore _ _) hcancel
  constructor
  · exact congrArg String.mk h1
  · exact natStr_inj (congrArg String.mk h2)

/-- Association-list lookup finds a stored pair when keys are distinct. -/
theorem lookup_eq_some_of_mem_nodup :
    ∀ (l : List (String × Nat)) (n : String) (m : Nat),
      (l.map Prod.fst).Nodup → (n, m) ∈ l → l.lookup n = some m := by
  intro l
  induction l with
  | nil => intro n m _ hm; simp at hm
  | cons a t ih =>
    intro n m hnd hm
    obtain ⟨k, v⟩ := a
    simp only [List.map_cons, List.nodup_cons] at hnd
    rcases List.mem_cons.mp hm with h1 | h2
    · rw [Prod.mk.injEq] at h1
      rw [List.lookup, h1.1, h1.2]
      simp
    · have hne : (n == k) = false := by
        apply beq_eq_false_iff_ne.mpr
        intro hnk
        exact hnd.1 (hnk ▸ List.mem_map.mpr ⟨(n, m), h2, rfl⟩)
      rw [List.lookup, hne]
      exact ih n m hnd.2 h2

/-- The emissions of one sensor evaluation are exactly the run keys of
the listed `.json` files that are new or have a changed mtime. -/
theorem mem_sensorEval_emissions {prev : List (String × Nat)} {snap : List DirEntry}
    {k : String} :
    k ∈ (sensorEval prev snap).1
      ↔ ∃ e, e ∈ snap ∧ isJsonFile e = true
          ∧ (prev.lookup e.name == some e.mtime) = false
          ∧ runKey e.name e.mtime = k := by
  simp only [sensorEval, List.mem_map, List.mem_filter, Bool.not_eq_true']
  constructor
  · rintro ⟨e, ⟨⟨he, hj⟩, hc⟩, hk⟩
    exact ⟨e, he, hj, hc, hk⟩
  · rintro ⟨e, he, hj, hc, hk⟩
    exact ⟨e, ⟨⟨he, hj⟩, hc⟩, hk⟩

/-- The returned cursor keeps the distinct filenames of the listing. -/
theorem sensorEval_cursor_names_nodup {prev : List (String × Nat)} {snap : List DirEntry}
    (h : (snap.map DirEntry.name).Nodup) :
    ((sensorEval prev snap).2.map Prod.fst).Nodup := by
  have : (sensorEval prev snap).2.map Prod.fst = (snap.filter isJsonFile).map DirEntry.name := by
    simp [sensorEval, List.map_map]
  rw [this]
  exact h.sublist ((snap.filter_sublist).map DirEntry.name)

/-- Within one evaluation of a listing with distinct filenames, the
emitted run keys are pairwise distinct. -/
theorem sensorEval_emissions_nodup {prev : List (String × Nat)} {snap : List DirEntry}
    (h : (snap.map DirEntry.name).Nodup) :
    (sensorEval prev snap).1.Nodup := by
  have hsub : List.Sublist (((snap.filter isJsonFile).filter
      (fun e => !(prev.lookup e.name == some e.mtime))).map DirEntry.name)
      (snap.map DirEntry.name) :=
    (((snap.filter isJsonFile).filter_sublist).trans (snap.filter_sublist)).map DirEntry.name
  have hnames : (((snap.filter isJsonFile).filter
      (fun e => !(prev.lookup e.name == some e.mtime))).map DirEntry.name).Nodup :=
    h.sublist hsub
  apply List.Nodup.map_on _ (hnames.of_map)
  intro x hx y hy hk
  exact List.inj_on_of_nodup_map hnames hx hy (runKey_inj hk).1

/-! ## C6: deduplication keys across evaluations -/

/-- C6 counterexample: the file `a.json` with mtime 1 is listed, then
deleted, then restored with the same mtime; the sensor emits the run key
`generate_pdf_reports_a.json_1` in both the first and the third
evaluation, so the same deduplication key is emitted twice across the
sequence. -/
theorem sensor_reemits_key_after_delete_and_restore :
    sensorTrace [] [[⟨"a.json", 1, true⟩], [], [⟨"a.json", 1, true⟩]]
        = [["generate_pdf_reports_a.json_1"], [], ["generate_pdf_reports_a.json_1"]]
      ∧ ¬ (sensorTrace [] [[⟨"a.json", 1, true⟩], [], [⟨"a.json", 1, true⟩]]).flatten.Nodup := by
  refine ⟨by decide, by decide⟩

/-- C6 (amended): within a single evaluation of a listing with distinct
filenames all emitted keys are distinct, and no key emitted by one
evaluation is emitted again by the directly following evaluation
(whatever it observes); a key can only recur across non-adjacent
evaluations, after its file's cursor entry is dropped or changed in
between. -/
theorem sensor_no_duplicate_keys_in_consecutive_evals
    (prev : List (String × Nat)) (snap1 snap2 : List DirEntry)
    (h : (snap1.map DirEntry.name).Nodup) :
    (sensorEval prev snap1).1.Nodup
      ∧ ∀ k ∈ (sensorEval prev snap1).1,
          k ∉ (sensorEval (sensorEval prev snap1).2 snap2).1 := by
  refine ⟨sensorEval_emissions_nodup h, ?_⟩
  intro k hk1 hk2
  obtain ⟨e1, he1, hj1, hc1, hkey1⟩ := mem_sensorEval_emissions.mp hk1
  obtain ⟨e2, he2, hj2, hc2, hkey2⟩ := mem_sensorEval_emissions.mp hk2
  obtain ⟨hname, hmtime⟩ := runKey_inj (hkey2.trans hkey1.symm)
  have hmem : (e1.name, e1.mtime) ∈ (sensorEval prev snap1).2 := by
    simp only [sensorEval]
    exact List.mem_map.mpr ⟨e1, List.mem_filter.mpr ⟨he1, hj1⟩, rfl⟩
  have hlook : (sensorEval prev snap1).2.lookup e1.name = some e1.mtime :=
    lookup_eq_some_of_mem_nodup _ _ _ (sensorEval_cursor_names_nodup h) hmem
  rw [hname, hmtime, hlook] at hc2
  simp at hc2

/-- Witness for C6's amended theorem: a one-file listing observed twice
in a row emits its key once and not again. -/
theorem sensor_no_duplicate_keys_in_consecutive_evals_witness :
    (([⟨"a.json", 1, true⟩] : List DirEntry).map DirEntry.name).Nodup
      ∧ ((sensorEval [] [⟨"a.json", 1, true⟩]).1.Nodup
        ∧ ∀ k ∈ (sensorEval [] [⟨"a.json", 1, true⟩]).1,
            k ∉ (sensorEval (sensorEval [] [⟨"a.json", 1, true⟩]).2
                  [⟨"a.json", 1, true⟩]).1) :=
  ⟨by decide,
   sensor_no_duplicate_keys_in_consecutive_evals [] [⟨"a.json", 1, true⟩]
     [⟨"a.json", 1, true⟩] (by decide)⟩

/-! ## C7: emission condition and cursor replacement -/

/-- C7: on one evaluation of a listing with distinct filenames, a listed
summary file triggers exactly one emitted work item precisely when its
filename is absent from the previous cursor or its mtime differs from
the recorded value (0 emissions otherwise), and the returned cursor is
exactly the freshly observed filename-to-mtime mapping — files missing
from the listing are dropped, not merged. -/
theorem sensor_file_triggers_iff_new_or_changed
    (prev : List (String × Nat)) (snap : List DirEntry)
    (h : (snap.map DirEntry.name).Nodup) :
    (sensorEval prev snap).2 = (snap.filter isJsonFile).map (fun e => (e.name, e.mtime))
      ∧ ∀ e ∈ snap, isJsonFile e = true →
          (sensorEval prev snap).1.count (runKey e.name e.mtime)
            = (if prev.lookup e.name == some e.mtime then 0 else 1) := by
  refine ⟨rfl, ?_⟩
  intro e he hj
  by_cases hcond : (prev.lookup e.name == some e.mtime) = true
  · rw [if_pos hcond]
    apply List.count_eq_zero.mpr
    intro hmem
    obtain ⟨e', he', hj', hc', hkey'⟩ := mem_sensorEval_emissions.mp hmem
    obtain ⟨hname, hmtime⟩ := runKey_inj hkey'
    have : e' = e := List.inj_on_of_nodup_map h he' he hname
    rw [this] at hc'
    rw [hc'] at hcond
    exact Bool.false_ne_true hcond
  · rw [if_neg hcond]
    apply List.count_eq_one_of_mem (sensorEval_emissions_nodup h)
    apply mem_sensorEval_emissions.mpr
    exact ⟨e, he, hj, Bool.not_eq_true _ ▸ hcond, rfl⟩

/-- Witness for C7: with `a.json` recorded at mtime 1 and observed at
mtime 2, the evaluation emits its key exactly once and returns the fresh
mapping. -/
theorem sensor_file_triggers_iff_new_or_changed_witness :
    (sensorEval [("a.json", 1)] [⟨"a.json", 2, true⟩]).2
        = (([⟨"a.json", 2, true⟩] : List DirEntry).filter isJsonFile).map
            (fun e => (e.name, e.mtime))
      ∧ (sensorEval [("a.json", 1)] [⟨"a.json", 2, true⟩]).1.count (runKey "a.json" 2)
          = (if ([("a.json", 1)] : List (String × Nat)).lookup "a.json" == some 2
              then 0 else 1) :=
  ⟨(sensor_file_triggers_iff_new_or_changed [("a.json", 1)] [⟨"a.json", 2, true⟩]
      (by decide)).1,
   (sensor_file_triggers_iff_new_or_changed [("a.json", 1)] [⟨"a.json", 2, true⟩]
      (by decide)).2 ⟨"a.json", 2, true⟩ (by decide) (by decide)⟩

/-! ## Summarization helper lemmas -/

/-- The per-row loop aborts exactly when some selected row's response is
malformed. -/
theorem summarizeGo_eq_none_iff {α : Type} (fetchP : String → FetchedPost)
    (llm : String → String) (decode : String → Option α) :
    ∀ rows : List PostRow,
      summarizeGo fetchP llm decode rows = none
        ↔ ∃ r ∈ rows, decode (summaryRespOf fetchP llm r) = none := by
  intro rows
  induction rows with
  | nil => simp [summarizeGo]
  | cons r rs ih =>
    cases hd : decode (summaryRespOf fetchP llm r) with
    | none => simp [summarizeGo, hd]
    | some payload => simp [summarizeGo, hd, Option.map_eq_none', ih]

/-- A completed loop produces one record per selected row. -/
theorem summarizeGo_some_length {α : Type} (fetchP : String → FetchedPost)
    (llm : String → String) (decode : String → Option α) :
    ∀ (rows : List PostRow) (recs : List (SummaryRec α)),
      summarizeGo fetchP llm decode rows = some recs → recs.length = rows.length := by
  intro rows
  induction rows with
  | nil => intro recs h; simp [summarizeGo] at h; simp [← h]
  | cons r rs ih =>
    intro recs h
    cases hd : decode (summaryRespOf fetchP llm r) with
    | none => rw [summarizeGo, hd] at h; exact absurd h (by simp)
    | some payload =>
      rw [summarizeGo, hd] at h
      obtain ⟨l', hl', hcons⟩ := Option.map_eq_some'.mp h
      rw [← hcons]
      simp [ih l' hl']

/-- The loop issues one LLM request per row up to and including the
first malformed response. -/
theorem summarizeCalls_spec {α : Type} (fetchP : String → FetchedPost)
    (llm : String → String) (decode : String → Option α) :
    ∀ rows : List PostRow,
      summarizeCalls fetchP llm decode rows
        = (rows.takeWhile (fun r => (decode (summaryRespOf fetchP llm r)).isSome)).length
          + (if rows.all (fun r => (decode (summaryRespOf fetchP llm r)).isSome)
              then 0 else 1) := by
  intro rows
  induction rows with
  | nil => simp [summarizeCalls]
  | cons r rs ih =>
    cases hd : decode (summaryRespOf fetchP llm r) with
    | none => simp [summarizeCalls, List.takeWhile, List.all, hd]
    | some payload =>
      simp [summarizeCalls, List.takeWhile, List.all, hd, ih]
      omega

/-! ## C8: all-or-nothing summarization -/

/-- C8: a summarization run writes its output file (`Except.ok (some
recs)`) exactly when the partition selected at least one row and every
row's LLM response decoded successfully, with one record per selected
row; a malformed response for any row makes the run raise
(`Except.error ()`, no output file, no partial batch) and the request
count stops at the failing row — exactly one request per row up to and
including the first malformed response, so nothing is retried. -/
theorem summarize_writes_all_or_nothing {α : Type} (d : Date) (robotPosts : List PostRow)
    (fetchP : String → FetchedPost) (llm : String → String) (decode : String → Option α) :
    (summarizeRun d robotPosts fetchP llm decode = Except.error ()
        ↔ ∃ r ∈ summariesSelect d robotPosts, decode (summaryRespOf fetchP llm r) = none)
      ∧ ((∃ recs, summarizeRun d robotPosts fetchP llm decode = Except.ok (some recs))
        ↔ summariesSelect d robotPosts ≠ []
            ∧ ∀ r ∈ summariesSelect d robotPosts,
                (decode (summaryRespOf fetchP llm r)).isSome = true)
      ∧ (summarizeRun d robotPosts fetchP llm decode = Except.ok none
        ↔ summariesSelect d robotPosts = [])
      ∧ (∀ recs, summarizeRun d robotPosts fetchP llm decode = Except.ok (some recs)
          → recs.length = (summariesSelect d robotPosts).length)
      ∧ summarizeRunCalls d robotPosts fetchP llm decode
        = ((summariesSelect d robotPosts).takeWhile
             (fun r => (decode (summaryRespOf fetchP llm r)).isSome)).length
          + (if (summariesSelect d robotPosts).all
               (fun r => (decode (summaryRespOf fetchP llm r)).isSome) then 0 else 1) := by
  by_cases hempty : summariesSelect d robotPosts = []
  · simp [summarizeRun, summarizeRunCalls, hempty]
  · have hlen : 0 < (summariesSelect d robotPosts).length :=
      List.length_pos.mpr hempty
    cases hgo : summarizeGo fetchP llm decode (summariesSelect d robotPosts) with
    | none =>
      have hex := (summarizeGo_eq_none_iff fetchP llm decode _).mp hgo
      obtain ⟨r0, hr0, hd0⟩ := (summarizeGo_eq_none_iff fetchP llm decode _).mp hgo
      simp only [summarizeRun, summarizeRunCalls, if_pos hlen, hgo]
      refine ⟨by simp [hex], ?_, by simp [hempty], by simp, ?_⟩
      · constructor
        · rintro ⟨recs, hrecs⟩
          exact absurd hrecs (by simp)
        · rintro ⟨-, hall⟩
          have := hall r0 hr0
          rw [hd0] at this
          simp at this
      · exact summarizeCalls_spec fetchP llm decode _
    | some recs0 =>
      have hnone : ¬ ∃ r ∈ summariesSelect d robotPosts,
          decode (summaryRespOf fetchP llm r) = none := by
        intro hex
        rw [(summarizeGo_eq_none_iff fetchP llm decode _).mpr hex] at hgo
        exact absurd hgo (by simp)
      simp only [summarizeRun, summarizeRunCalls, if_pos hlen, hgo]
      refine ⟨by simp [hnone], ?_, by simp [hempty], ?_, ?_⟩
      · constructor
        · rintro -
          refine ⟨hempty, fun r hr => ?_⟩
          rcases hd : decode (summaryRespOf fetchP llm r) with - | p
          · exact absurd ⟨r, hr, hd⟩ hnone
          · simp
        · rintro -
          exact ⟨recs0, rfl⟩
      · intro recs hrecs
        have : recs0 = recs := by simpa using hrecs
        rw [← this]
        exact summarizeGo_some_length fetchP llm decode _ _ hgo
      · exact summarizeCalls_spec fetchP llm decode _

/-- Witness for C8: one selected robot post whose response decodes,
summarized into exactly one record, written as the full batch. -/
theorem summarize_writes_all_or_nothing_witness :
    summarizeRun ⟨2024, 5, 6⟩
        [⟨"p1", some "optimus", "robotics", "t", 19849 * 86400, 19849 * 86400, 5, 2, 19849⟩]
        (fun i => ⟨i, "t", "l", 7, "c"⟩) (fun s => s) Option.some
      = Except.ok (some [⟨"p1", 7, "l", some "optimus", "t", "c"⟩])
    ∧ ([(⟨"p1", 7, "l", some "optimus", "t", "c"⟩ : SummaryRec String)]).length
      = (summariesSelect ⟨2024, 5, 6⟩
          [⟨"p1", some "optimus", "robotics", "t", 19849 * 86400, 19849 * 86400, 5, 2, 19849⟩]).length :=
  ⟨rfl,
   (summarize_writes_all_or_nothing ⟨2024, 5, 6⟩
      [⟨"p1", some "optimus", "robotics", "t", 19849 * 86400, 19849 * 86400, 5, 2, 19849⟩]
      (fun i => ⟨i, "t", "l", 7, "c"⟩) (fun s => s) Option.some).2.2.2.1
     [⟨"p1", 7, "l", some "optimus", "t", "c"⟩] rfl⟩

/-! ## C9: compound labels never reach the robot-posts table -/

/-- C9: a title matched by two or more brand rules gets a compound,
hyphen-joined label that is not one of the three single brand values, so
the `humanoid IN ('optimus', 'figure', 'neo')` filters of
`select_robot_posts` and `summarize_robot_posts` exclude it: every row
inserted into `robot_posts` and every row selected for summarization
carries a single-brand label. -/
theorem compound_label_excluded_from_robot_posts (title : String)
    (h : 2 ≤ numBrandMatches title) :
    isRobotLabel (some (get_post_labels title)) = false
      ∧ (∀ (d : Date) (posts : List PostRow) (r : PostRow),
          r ∈ selectRobotInsert d posts → isRobotLabel r.humanoid = true)
      ∧ (∀ (d : Date) (rp : List PostRow) (r : PostRow),
          r ∈ summariesSelect d rp → isRobotLabel r.humanoid = true) := by
  refine ⟨?_, ?_, ?_⟩
  · rw [get_post_labels_eq_classifyFromRules]
    unfold classifyFromRules
    unfold numBrandMatches at h
    cases ho : optimusRule (pyLower title) <;> cases hf : figureRule (pyLower title) <;>
      cases hn : neoRule (pyLower title) <;> simp [ho, hf, hn] at h <;>
      simp only [ho, hf, hn] <;> decide
  · intro d posts r hr
    have hp := (List.mem_filter.mp hr).2
    simp only [robotSelectPred, Bool.and_eq_true] at hp
    exact hp.1.1
  · intro d rp r hr
    have hp := (List.mem_filter.mp hr).2
    simp only [Bool.and_eq_true] at hp
    exact hp.2

/-- Witness for C9: "Tesla Optimus and 1x Neo robot" matches both the
optimus and the neo rule and its label is excluded. -/
theorem compound_label_excluded_from_robot_posts_witness :
    2 ≤ numBrandMatches "Tesla Optimus and 1x Neo robot"
      ∧ (isRobotLabel (some (get_post_labels "Tesla Optimus and 1x Neo robot")) = false
        ∧ (∀ (d : Date) (posts : List PostRow) (r : PostRow),
            r ∈ selectRobotInsert d posts → isRobotLabel r.humanoid = true)
        ∧ (∀ (d : Date) (rp : List PostRow) (r : PostRow),
            r ∈ summariesSelect d rp → isRobotLabel r.humanoid = true)) :=
  ⟨by decide,
   compound_label_excluded_from_robot_posts "Tesla Optimus and 1x Neo robot" (by decide)⟩

/-! ## C10: empty partitions summarize nothing and trigger nothing -/

/-- C10: when the robot-posts query of a partition returns zero rows,
the summarization run makes no LLM request and writes no output file
(`Except.ok none`), and since the sensor only emits run keys of files
present in the directory listing, no report-generation work item is ever
emitted for a summary filename that was never written. -/
theorem empty_partition_no_llm_calls_no_file_no_report {α : Type} (d : Date)
    (robotPosts : List PostRow) (fetchP : String → FetchedPost) (llm : String → String)
    (decode : String → Option α)
    (hempty : summariesSelect d robotPosts = []) :
    summarizeRun d robotPosts fetchP llm decode = Except.ok none
      ∧ summarizeRunCalls d robotPosts fetchP llm decode = 0
      ∧ ∀ (prev : List (String × Nat)) (snap : List DirEntry) (fname : String) (mt : Nat),
          (∀ e ∈ snap, isJsonFile e = true → e.name ≠ fname) →
          runKey fname mt ∉ (sensorEval prev snap).1 := by
  refine ⟨by simp [summarizeRun, hempty], by simp [summarizeRunCalls, hempty], ?_⟩
  intro prev snap fname mt habsent hmem
  obtain ⟨e, he, hj, hc, hkey⟩ := mem_sensorEval_emissions.mp hmem
  exact habsent e he hj (runKey_inj hkey).1

/-- Witness for C10: an empty robot-posts table for 2024-05-06, and a
listing that does not contain `report_2024-05-06.json`. -/
theorem empty_partition_no_llm_calls_no_file_no_report_witness :
    summarizeRun (α := String) ⟨2024, 5, 6⟩ [] (fun i => ⟨i, "t", "l", 7, "c"⟩)
        (fun s => s) Option.some = Except.ok none
      ∧ summarizeRunCalls (α := String) ⟨2024, 5, 6⟩ [] (fun i => ⟨i, "t", "l", 7, "c"⟩)
          (fun s => s) Option.some = 0
      ∧ runKey "report_2024-05-06.json" 5
          ∉ (sensorEval [] [⟨"b.json", 1, true⟩]).1 :=
  ⟨(empty_partition_no_llm_calls_no_file_no_report ⟨2024, 5, 6⟩ []
      (fun i => ⟨i, "t", "l", 7, "c"⟩) (fun s => s) Option.some rfl).1,
   (empty_partition_no_llm_calls_no_file_no_report ⟨2024, 5, 6⟩ []
      (fun i => ⟨i, "t", "l", 7, "c"⟩) (fun s => s) Option.some rfl).2.1,
   (empty_partition_no_llm_calls_no_file_no_report ⟨2024, 5, 6⟩ []
      (fun i => ⟨i, "t", "l", 7, "c"⟩) (fun s => s) Option.some rfl).2.2
     [] [⟨"b.json", 1, true⟩] "report_2024-05-06.json" 5 (by decide)⟩

end RedditTracker
